import Mathlib

/-!
Shallow embedding of the core-transcribe real-time audio session engine
(`src/components/LiveAgent.tsx` and the batch transcriber in
`src/unnamed/part_000`), with theorems checking the specification's
claims about the PCM codec, the transport framing, the playback
scheduler, the turn assembler and the session lifecycle controller.
-/

namespace CoreTranscribe

/-! ## PCM codec

Embedding of the inline decoding in `onmessage` (a `new Int16Array`
view over the received buffer, dividing each sample by 32768; the
`Int16Array` constructor throws on a buffer whose byte length is not a
multiple of 2, so decoding fails there).  Samples are embedded as
rationals, bytes as naturals below 256. -/

def clamp1 (x : ℚ) : ℚ := max (-1) (min 1 x)

/-- Modelled from the spec: `float32ToInt16` lives in
`src/utils/audioUtils.ts`, which is not under `src/`; the spec says encode
"clamps each sample to [-1,1], scales to the signed 16-bit range,
truncates/rounds, emits little-endian bytes". -/
def quantize (x : ℚ) : ℤ := min 32767 ⌊clamp1 x * 32768⌋

/-- Little-endian two's-complement byte pair of a 16-bit signed value. -/
def int16ToBytes (v : ℤ) : List ℕ :=
  let u := (v % 65536).toNat
  [u % 256, u / 256]

/-- Modelled from the spec (continued): byte serialisation of the encoded
frame, little-endian 16-bit PCM. -/
def pcmEncode (xs : List ℚ) : List ℕ :=
  (xs.map (fun x => int16ToBytes (quantize x))).flatten

/-- Signed 16-bit value read from a little-endian byte pair, as the
platform `Int16Array` view does. -/
def int16OfBytes (lo hi : ℕ) : ℤ :=
  let v : ℤ := lo + 256 * hi
  if v < 32768 then v else v - 65536

/-- Embedding of decode: bytes to samples, dividing by 32768
(`LiveAgent.tsx` lines 343-348); `none` models the `Int16Array`
constructor throwing on an odd byte length (`MalformedFrame`). -/
def pcmDecode : List ℕ → Option (List ℚ)
  | [] => some []
  | [_] => none
  | lo :: hi :: rest => (pcmDecode rest).map (fun t => ((int16OfBytes lo hi : ℚ) / 32768) :: t)

/-- The sample value recovered after an encode/decode round trip. -/
def roundtripSample (x : ℚ) : ℚ := (quantize x : ℚ) / 32768

/-! ## Transport framing

The `onaudioprocess` handler (`LiveAgent.tsx` lines 318-336) builds a
binary string from the PCM bytes and applies the platform `btoa`, i.e.
standard base64 with padding. -/

def b64Alphabet : List Char :=
  "ABCDEFGHIJKLMNOPQRSTUVWXYZabcdefghijklmnopqrstuvwxyz0123456789+/".toList

def b64Char (n : ℕ) : Char := b64Alphabet.getD n '='

def b64Index (c : Char) : Option ℕ := b64Alphabet.indexOf? c

/-- Embedding of frameToWire: base64 text of a byte sequence, as `btoa`
over the binary string assembled in `onaudioprocess`. -/
def b64Encode : List ℕ → List Char
  | [] => []
  | [a] => [b64Char (a / 4), b64Char (a % 4 * 16), '=', '=']
  | [a, b] => [b64Char (a / 4), b64Char (a % 4 * 16 + b / 16), b64Char (b % 16 * 4), '=']
  | a :: b :: c :: rest =>
      b64Char (a / 4) :: b64Char (a % 4 * 16 + b / 16) :: b64Char (b % 16 * 4 + c / 64) ::
        b64Char (c % 64) :: b64Encode rest

/-- Modelled from the spec: `wireToFrame` is `base64ToArrayBuffer` in
`src/utils/audioUtils.ts`, which is not under `src/`; the spec says it is
the exact inverse of the reversible text-safe transport encoding, i.e.
standard base64 decoding with padding. -/
def b64Decode : List Char → Option (List ℕ)
  | [] => some []
  | c1 :: c2 :: c3 :: c4 :: rest =>
      if c3 = '=' ∧ c4 = '=' ∧ rest = [] then do
        let n1 ← b64Index c1
        let n2 ← b64Index c2
        some [n1 * 4 + n2 / 16]
      else if c4 = '=' ∧ rest = [] then do
        let n1 ← b64Index c1
        let n2 ← b64Index c2
        let n3 ← b64Index c3
        some [n1 * 4 + n2 / 16, n2 % 16 * 16 + n3 / 4]
      else do
        let n1 ← b64Index c1
        let n2 ← b64Index c2
        let n3 ← b64Index c3
        let n4 ← b64Index c4
        let tail ← b64Decode rest
        some ((n1 * 4 + n2 / 16) :: (n2 % 16 * 16 + n3 / 4) :: (n3 % 4 * 64 + n4) :: tail)
  | _ => none

/-! ## Playback scheduler

Embedding of the audio-delta scheduling in `onmessage`
(`LiveAgent.tsx` lines 350-369): a segment of `n` samples at 24 kHz has
duration `n / 24000`; it is started at `max(now, nextStartTime)`, and
`nextStartTime` is advanced by the duration.  `played` records each
scheduled segment as `(startTime, duration)` in scheduling order. -/

structure SchedState where
  nextStartTime : ℚ
  played : List (ℚ × ℚ)
deriving DecidableEq

def segmentDuration (n : ℕ) : ℚ := (n : ℚ) / 24000

/-- One `onAudioDelta` scheduling step: `now` is the output clock value,
`n` the decoded sample count. -/
def scheduleDelta (now : ℚ) (n : ℕ) (st : SchedState) : SchedState :=
  let start := max now st.nextStartTime
  { nextStartTime := start + segmentDuration n
    played := st.played ++ [(start, segmentDuration n)] }

/-- A whole sequence of `onAudioDelta` events, each with its clock value
and sample count, in arrival order. -/
def runSched (evs : List (ℚ × ℕ)) (st : SchedState) : SchedState :=
  evs.foldl (fun s e => scheduleDelta e.1 e.2 s) st

def initSched : SchedState := { nextStartTime := 0, played := [] }

/-- Adjacent scheduled segments do not overlap: the later one starts no
earlier than the earlier one's start time plus its duration. -/
def segmentsContiguous (l : List (ℚ × ℚ)) : Prop :=
  List.Chain' (fun p q => p.1 + p.2 ≤ q.1) l

/-- Invariant: the scheduling log is contiguous and the last scheduled
segment ends no later than the cursor. -/
def schedInv (st : SchedState) : Prop :=
  segmentsContiguous st.played ∧ ∀ p ∈ st.played.getLast?, p.1 + p.2 ≤ st.nextStartTime

/-! ## Data model: messages and the live-agent component state -/

inductive Role
  | user
  | model
  | system
deriving DecidableEq, Repr

structure Msg where
  role : Role
  text : String
deriving DecidableEq, Repr

/-- The mutable state of the `LiveAgent` component: React state hooks and
refs (`LiveAgent.tsx` lines 88-113).  Media streams, mixer inputs and
playback sources are counted; node/context/handle refs are tracked by
presence. -/
structure AgentState where
  isActive : Bool
  error : Option String
  transcripts : List Msg
  streamingInput : String
  volume : ℚ
  useSystemAudio : Bool
  diarizationEnabled : Bool
  translationEnabled : Bool
  mediaStreams : ℕ
  mixedInputs : ℕ
  processor : Bool
  inputContext : Bool
  audioContext : Bool
  outputGain : Bool
  session : Bool
  sources : ℕ
  nextStartTime : ℚ
  turnLanguageDetected : Bool
  currentInputTrans : String
  currentOutputTrans : String
deriving DecidableEq

/-- Teardown routine cleanupAudio (`LiveAgent.tsx` lines 132-175): stops
and drops all media streams, disconnects the processor, closes both audio
contexts and the gain node, closes the session handle, stops and clears
all playback sources, deactivates, resets the playback cursor, the volume
meter, the live input preview and the per-turn language flag. -/
def cleanupAudio (s : AgentState) : AgentState :=
  { s with
    mediaStreams := 0
    processor := false
    inputContext := false
    audioContext := false
    outputGain := false
    session := false
    sources := 0
    isActive := false
    nextStartTime := 0
    volume := 0
    streamingInput := ""
    turnLanguageDetected := false }

/-- No acquired resource or handle is outstanding. -/
def cleanedUp (s : AgentState) : Prop :=
  s.mediaStreams = 0 ∧ s.processor = false ∧ s.inputContext = false ∧
    s.audioContext = false ∧ s.outputGain = false ∧ s.session = false ∧
    s.sources = 0 ∧ s.isActive = false

/-- Explicit stop: the main control invokes the teardown directly. -/
def stopClick (s : AgentState) : AgentState := cleanupAudio s

/-- Remote close path: the onclose callback
(`LiveAgent.tsx` lines 428-431). -/
def onCloseEvent (s : AgentState) : AgentState := cleanupAudio s

/-- Remote error path: the onerror callback
(`LiveAgent.tsx` lines 432-436). -/
def onErrorEvent (m : String) (s : AgentState) : AgentState :=
  cleanupAudio { s with error := some ("Connection interrupted. " ++ m) }

/-- Local exception path: the catch block of connect
(`LiveAgent.tsx` lines 441-445). -/
def connectException (m : String) (s : AgentState) : AgentState :=
  cleanupAudio { s with error := some m }

/-! ## Turn assembler

Embedding of the transcription handling in `onmessage`
(`LiveAgent.tsx` lines 372-426). -/

/-- Scan for the closing bracket of the language tag: the regex
`^\[LANG:(.*?)\]` captures lazily up to the first `]`, and `.` does not
cross a newline. -/
def scanToBracket : List Char → Option (List Char)
  | [] => none
  | c :: rest =>
      if c = ']' then some []
      else if c = '\n' then none
      else (scanToBracket rest).map (fun l => c :: l)

/-- Match of `^\[LANG:(.*?)\]` at the start of a character list,
returning the captured language name. -/
def langTagMatchL : List Char → Option (List Char)
  | '[' :: 'L' :: 'A' :: 'N' :: 'G' :: ':' :: rest => scanToBracket rest
  | _ => none

/-- Match of `^\[LANG:(.*?)\]` against the accumulated output buffer,
returning the captured language name. -/
def langTagMatch (buf : String) : Option String :=
  (langTagMatchL buf.toList).map (fun l => String.mk l)

/-- Stripping of the leading language tag, as
`text.replace(/^\[LANG:.*?\]\s*/, '')`: removes the tag and any
whitespace after it; no match leaves the text unchanged. -/
def stripLangTag (buf : String) : String :=
  match langTagMatchL buf.toList with
  | some lang =>
      String.mk (((buf.toList.drop 6).drop (lang.length + 1)).dropWhile Char.isWhitespace)
  | none => buf

/-- JavaScript truthiness of the trimmed string: some character is
non-whitespace. -/
def trimNonblank (s : String) : Bool :=
  s.toList.any (fun c => !c.isWhitespace)

/-- JavaScript trim: whitespace removed from both ends. -/
def jsTrim (s : String) : String :=
  String.mk (((s.toList.dropWhile Char.isWhitespace).reverse.dropWhile
    Char.isWhitespace).reverse)

/-- Input transcript delta handling (`LiveAgent.tsx` lines 391-395):
append to the input accumulator and overwrite the live streaming
preview. -/
def handleInputDelta (t : String) (s : AgentState) : AgentState :=
  { s with
    currentInputTrans := s.currentInputTrans ++ t
    streamingInput := s.currentInputTrans ++ t }

/-- Output transcript delta handling (`LiveAgent.tsx` lines 373-389):
append to the output accumulator; if the buffer now matches the
language-tag pattern and the per-turn flag is unset, emit one system
message and set the flag. -/
def handleOutputDelta (t : String) (s : AgentState) : AgentState :=
  let buf := s.currentOutputTrans ++ t
  let s1 := { s with currentOutputTrans := buf }
  match langTagMatch buf with
  | some lang =>
      if s1.turnLanguageDetected then s1
      else
        { s1 with
          transcripts := s1.transcripts ++ [⟨Role.system, "Language Detected: " ++ lang⟩]
          turnLanguageDetected := true }
  | none => s1

/-- Turn completion handling (`LiveAgent.tsx` lines 397-426): finalize
the input accumulator as a user message if its trim is truthy (the raw
text is pushed), then finalize the output accumulator as a model message
with the leading language tag stripped, clearing the respective buffers
and the per-turn flag. -/
def handleTurnComplete (s : AgentState) : AgentState :=
  let s1 :=
    if trimNonblank s.currentInputTrans then
      { s with
        transcripts := s.transcripts ++ [⟨Role.user, s.currentInputTrans⟩]
        currentInputTrans := ""
        streamingInput := "" }
    else s
  if trimNonblank s1.currentOutputTrans then
    { s1 with
      transcripts := s1.transcripts ++ [⟨Role.model, stripLangTag s1.currentOutputTrans⟩]
      currentOutputTrans := ""
      turnLanguageDetected := false }
  else s1

/-- The user-role messages of a transcript log. -/
def userMsgs (l : List Msg) : List Msg := l.filter (fun m => m.role = Role.user)

/-! ## Connect path and mode selection -/

/-- Outcome of the optional system-audio acquisition
(`LiveAgent.tsx` lines 218-241). -/
inductive SysOutcome
  | declined
  | grantedNoTrack
  | grantedWithTrack
deriving DecidableEq

/-- Number of media streams each outcome pushes. -/
def sysStreams : SysOutcome → ℕ
  | SysOutcome.declined => 0
  | SysOutcome.grantedNoTrack => 1
  | SysOutcome.grantedWithTrack => 1

/-- System-audio acquisition in connect: a granted stream is pushed
whether or not it carries an audio track, but only a stream with an audio
track is connected to the mixer; a decline (rejected `getDisplayMedia`)
only logs a console warning.  No notice message and no error state is
produced on any path. -/
def acquireSysAudio (o : SysOutcome) (s : AgentState) : AgentState :=
  if s.useSystemAudio then
    match o with
    | SysOutcome.declined => s
    | SysOutcome.grantedNoTrack => { s with mediaStreams := s.mediaStreams + 1 }
    | SysOutcome.grantedWithTrack =>
        { s with
          mediaStreams := s.mediaStreams + 1
          mixedInputs := s.mixedInputs + 1 }
  else s

/-- The resource-acquisition part of connect
(`LiveAgent.tsx` lines 184-296), on the path where the microphone grant
and the remote connection succeed: clears the error, creates both audio
contexts and the gain node, pushes and mixes the microphone stream, runs
the optional system-audio acquisition, creates the processor and stores
the session handle.  No `AlreadyActive` (or any other) state check
occurs. -/
def connectSetup (o : SysOutcome) (s : AgentState) : AgentState :=
  let s1 := { s with
    error := none
    inputContext := true
    audioContext := true
    outputGain := true
    mediaStreams := s.mediaStreams + 1
    mixedInputs := s.mixedInputs + 1 }
  let s2 := acquireSysAudio o s1
  { s2 with processor := true, session := true }

/-- Status text of the system message emitted in the open callback
(`LiveAgent.tsx` lines 299-307). -/
def openStatusText (t d : Bool) : String :=
  if t then "Translator Mode Active."
  else if d then "Secure Link Established. Speaker ID Active."
  else "Secure Link Established."

/-- Open callback: activates the session and appends the mode-bearing
system message. -/
def onOpen (s : AgentState) : AgentState :=
  { s with
    isActive := true
    transcripts := s.transcripts ++
      [⟨Role.system, openStatusText s.translationEnabled s.diarizationEnabled⟩] }

/-- A whole successful connect followed by the remote open callback. -/
def connectSuccess (o : SysOutcome) (s : AgentState) : AgentState :=
  onOpen (connectSetup o s)

/-- The main control (`LiveAgent.tsx` line 584) runs teardown when active
and connect otherwise. -/
def mainButtonAction (o : SysOutcome) (s : AgentState) : AgentState :=
  if s.isActive then cleanupAudio s else connectSuccess o s

/-- The three mutually exclusive instruction modes. -/
inductive Mode
  | translator
  | diarization
  | assistant
deriving DecidableEq, Repr

/-- Mode selection structure shared by the instruction builder
(`LiveAgent.tsx` lines 262-281) and the open-status message: an
`if translationEnabled / else if diarizationEnabled / else` chain. -/
def selectMode (t d : Bool) : Mode :=
  if t then Mode.translator else if d then Mode.diarization else Mode.assistant

def translatorInstructionBody : String :=
  "MODE: REAL-TIME TRANSLATOR.\n1. Translate the input audio into English (or the most logical target language).\n2. Output ONLY the translation text after the [LANG:...] tag.\n3. Do not converse."

def diarizationInstructionBody : String :=
  "MODE: ADVANCED SPEAKER DIARIZATION.\n1. Actively identify distinct voices ([Speaker 1], [Speaker 2]).\n2. Prepend speaker labels to your text response (after the [LANG:...] tag).\n3. Example: \"[LANG:English] [Speaker 1]: Hello.\""

def assistantInstructionBody : String :=
  "MODE: ASSISTANT.\n1. Be helpful, concise, and speak naturally."

def baseInstruction : String :=
  "You are EBURON.\n\nCRITICAL LANGUAGE DETECTION PROTOCOL:\n1. Continuously analyze the language of the user\x27s input audio.\n2. If you detect a language, YOU MUST start your textual response with [LANG:LanguageName] (e.g. [LANG:English], [LANG:Spanish], [LANG:Tagalog]).\n3. CRITICAL: DO NOT SPEAK this tag. It is for metadata only. The audio output must only contain your natural response."

/-- The instruction payload built in connect
(`LiveAgent.tsx` lines 260-281). -/
def systemInstructionFor (t d : Bool) : String :=
  if t then baseInstruction ++ "\n" ++ translatorInstructionBody
  else if d then baseInstruction ++ "\n" ++ diarizationInstructionBody
  else baseInstruction ++ "\n" ++ assistantInstructionBody

/-- Which mode an instruction payload expresses. -/
def modeOfInstruction (s : String) : Option Mode :=
  if s = baseInstruction ++ "\n" ++ translatorInstructionBody then some Mode.translator
  else if s = baseInstruction ++ "\n" ++ diarizationInstructionBody then some Mode.diarization
  else if s = baseInstruction ++ "\n" ++ assistantInstructionBody then some Mode.assistant
  else none

/-- Which mode an open-status message expresses. -/
def modeOfStatus (s : String) : Option Mode :=
  if s = "Translator Mode Active." then some Mode.translator
  else if s = "Secure Link Established. Speaker ID Active." then some Mode.diarization
  else if s = "Secure Link Established." then some Mode.assistant
  else none

/-- Audio-delta branch of `onmessage` on the agent state: a malformed
frame (odd byte length) makes the `Int16Array` construction throw, so the
segment is neither scheduled nor registered and no teardown runs; a
well-formed frame is scheduled at `max(now, nextStartTime)` and
registered. -/
def onAudioDeltaAgent (now : ℚ) (bs : List ℕ) (s : AgentState) : AgentState :=
  match pcmDecode bs with
  | none => s
  | some samples =>
      let start := max now s.nextStartTime
      { s with
        nextStartTime := start + segmentDuration samples.length
        sources := s.sources + 1 }

/-! ## Batch transcriber (`src/unnamed/part_000`) -/

/-- The states of the batch transcriber relevant to system-audio
acquisition. -/
structure BatchState where
  streamError : Option String
  useSystemAudio : Bool
  mediaStreams : ℕ
  mixedInputs : ℕ
  isRecording : Bool
deriving DecidableEq

/-- System-audio acquisition in `startRealtimeRecording`
(`src/unnamed/part_000` lines 98-118): a granted stream without an audio
track sets the visible `streamError` notice; a decline logs a warning and
resets the system-audio toggle. -/
def batchAcquireSysAudio (o : SysOutcome) (s : BatchState) : BatchState :=
  if s.useSystemAudio then
    match o with
    | SysOutcome.declined => { s with useSystemAudio := false }
    | SysOutcome.grantedNoTrack =>
        { s with
          mediaStreams := s.mediaStreams + 1
          streamError := some ("System audio not shared. Recording microphone only.") }
    | SysOutcome.grantedWithTrack =>
        { s with
          mediaStreams := s.mediaStreams + 1
          mixedInputs := s.mixedInputs + 1 }
  else s

/-- The success path of `startRealtimeRecording` after the microphone
grant: clears the error, pushes and mixes the microphone stream, runs
the optional system-audio acquisition, and ends recording-active. -/
def batchStartRecording (o : SysOutcome) (s : BatchState) : BatchState :=
  let s1 := { s with
    streamError := none
    mediaStreams := s.mediaStreams + 1
    mixedInputs := s.mixedInputs + 1 }
  let s2 := batchAcquireSysAudio o s1
  { s2 with isRecording := true }

/-! ## Sample states and scenario states for concrete instances -/

/-- The component state right after mount, before any session
(`LiveAgent.tsx` lines 88-113: diarization defaults on, translation and
system audio off), with an empty transcript log. -/
def freshAgentState : AgentState :=
  { isActive := false
    error := none
    transcripts := []
    streamingInput := ""
    volume := 0
    useSystemAudio := false
    diarizationEnabled := true
    translationEnabled := false
    mediaStreams := 0
    mixedInputs := 0
    processor := false
    inputContext := false
    audioContext := false
    outputGain := false
    session := false
    sources := 0
    nextStartTime := 0
    turnLanguageDetected := false
    currentInputTrans := ""
    currentOutputTrans := "" }

/-- A state with one active session holding its resources. -/
def sampleActiveState : AgentState :=
  { freshAgentState with
    isActive := true
    mediaStreams := 1
    mixedInputs := 1
    processor := true
    inputContext := true
    audioContext := true
    outputGain := true
    session := true }

/-- A pre-session state in which the user enabled system audio. -/
def sampleSysAudioState : AgentState :=
  { freshAgentState with useSystemAudio := true }

/-- A pre-recording batch-transcriber state with system audio enabled. -/
def sampleBatchState : BatchState :=
  { streamError := none
    useSystemAudio := true
    mediaStreams := 0
    mixedInputs := 0
    isRecording := false }

/-- Output transcripts accumulated by the C4 scenario deltas. -/
def c4AfterDeltas : AgentState :=
  handleOutputDelta ("English] Hi") (handleOutputDelta ("[LANG:") freshAgentState)

/-- Input transcripts accumulated by the C3 scenario deltas. -/
def c3AfterDeltas : AgentState :=
  handleInputDelta ("llo") (handleInputDelta ("He") freshAgentState)

/-- State after a turn whose accumulated input carries surrounding
whitespace. -/
def c3CexState : AgentState :=
  handleTurnComplete (handleInputDelta ("lo ") (handleInputDelta (" Hel") freshAgentState))

/-! ## Codec lemmas -/

lemma quantize_lb (x : ℚ) : -32768 ≤ quantize x := by
  unfold quantize
  have h1 : (-1 : ℚ) ≤ clamp1 x := le_max_left _ _
  have h2 : ((-32768 : ℤ) : ℚ) ≤ clamp1 x * 32768 := by
    push_cast
    nlinarith
  have := Int.le_floor.mpr h2
  omega

lemma quantize_ub (x : ℚ) : quantize x ≤ 32767 := min_le_left _ _

lemma int16OfBytes_int16ToBytes (v : ℤ) (h1 : -32768 ≤ v) (h2 : v ≤ 32767) :
    int16OfBytes ((int16ToBytes v).get ⟨0, by simp [int16ToBytes]⟩)
      ((int16ToBytes v).get ⟨1, by simp [int16ToBytes]⟩) = v := by
  simp only [int16ToBytes, int16OfBytes, List.get]
  have hmod : v % 65536 = if 0 ≤ v then v else v + 65536 := by
    split <;> omega
  split <;> omega

lemma pcmDecode_pair (lo hi : ℕ) (rest : List ℕ) :
    pcmDecode (lo :: hi :: rest) =
      (pcmDecode rest).map (fun t => ((int16OfBytes lo hi : ℚ) / 32768) :: t) := rfl

/-- Decoding inverts encoding sample-by-sample: each little-endian 16-bit
sample is recovered and divided by 32768. -/
lemma pcmDecode_pcmEncode (xs : List ℚ) :
    pcmDecode (pcmEncode xs) = some (xs.map roundtripSample) := by
  induction xs with
  | nil => rfl
  | cons x t ih =>
      have hb : int16ToBytes (quantize x) =
          [((quantize x) % 65536).toNat % 256, ((quantize x) % 65536).toNat / 256] := rfl
      have hback : int16OfBytes (((quantize x) % 65536).toNat % 256)
          (((quantize x) % 65536).toNat / 256) = quantize x := by
        have := int16OfBytes_int16ToBytes (quantize x) (quantize_lb x) (quantize_ub x)
        simpa [int16ToBytes, List.get] using this
      simp only [pcmEncode, List.map_cons, List.flatten_cons, hb, List.cons_append,
        List.nil_append]
      rw [pcmDecode_pair]
      have ihx : pcmDecode ((t.map (fun y => int16ToBytes (quantize y))).flatten) =
          some (t.map roundtripSample) := ih
      simp only [pcmEncode] at ihx
      rw [ihx]
      simp [hback, roundtripSample]

/-- Each recovered sample is within one quantization step (1/32768) of the
clamped original. -/
lemma roundtrip_error (x : ℚ) : |roundtripSample x - clamp1 x| ≤ 1 / 32768 := by
  have hc_ub : clamp1 x ≤ 1 := max_le (by norm_num) (min_le_left _ _)
  have hfloor_le : (⌊clamp1 x * 32768⌋ : ℚ) ≤ clamp1 x * 32768 := Int.floor_le _
  have hfloor_gt : clamp1 x * 32768 < (⌊clamp1 x * 32768⌋ : ℚ) + 1 := Int.lt_floor_add_one _
  have key : -1 ≤ (quantize x : ℚ) - clamp1 x * 32768 ∧
      (quantize x : ℚ) - clamp1 x * 32768 ≤ 1 := by
    rcases le_or_lt (⌊clamp1 x * 32768⌋) 32767 with h | h
    · have hq : quantize x = ⌊clamp1 x * 32768⌋ := min_eq_right h
      rw [hq]
      constructor <;> linarith
    · have hq : quantize x = 32767 := min_eq_left (by omega)
      have hge : (32768 : ℚ) ≤ (⌊clamp1 x * 32768⌋ : ℚ) := by
        exact_mod_cast (by omega : (32768 : ℤ) ≤ ⌊clamp1 x * 32768⌋)
      have hub : clamp1 x * 32768 ≤ 32768 := by nlinarith
      rw [hq]
      constructor
      · push_cast
        linarith
      · push_cast
        linarith
  obtain ⟨k1, k2⟩ := key
  rw [abs_le, roundtripSample]
  constructor <;> linarith

/-! ## Transport-framing lemmas -/

lemma b64Index_b64Char : ∀ n < 64, b64Index (b64Char n) = some n := by decide

lemma b64Char_ne_pad : ∀ n < 64, b64Char n ≠ '=' := by decide

lemma mulAdd_div (m k c : ℕ) (hc : 0 < c) (hk : k < c) : (m * c + k) / c = m := by
  rw [Nat.add_comm, Nat.mul_comm, Nat.add_mul_div_left _ _ hc, Nat.div_eq_of_lt hk,
    Nat.zero_add]

lemma mulAdd_mod (m k c : ℕ) (hk : k < c) : (m * c + k) % c = k := by
  rw [Nat.add_comm, Nat.mul_comm, Nat.add_mul_mod_self_left, Nat.mod_eq_of_lt hk]

/-- Base64 round trip: decoding the encoding recovers every byte sequence
exactly. -/
lemma b64_roundtrip : ∀ bs : List ℕ, (∀ b ∈ bs, b < 256) →
    b64Decode (b64Encode bs) = some bs
  | [], _ => rfl
  | [a], h => by
      have ha : a < 256 := h a (by simp)
      have h1 : a / 4 < 64 := by omega
      have h2 : a % 4 * 16 < 64 := by omega
      show b64Decode [b64Char (a / 4), b64Char (a % 4 * 16), '=', '='] = some [a]
      rw [b64Decode, if_pos ⟨rfl, rfl, rfl⟩, b64Index_b64Char _ h1, b64Index_b64Char _ h2]
      simp only [Option.bind_eq_bind, Option.some_bind]
      have e1 : a % 4 * 16 / 16 = a % 4 := Nat.mul_div_cancel _ (by norm_num)
      rw [e1]
      have e2 : a / 4 * 4 + a % 4 = a := by omega
      rw [e2]
  | [a, b], h => by
      have ha : a < 256 := h a (by simp)
      have hb : b < 256 := h b (by simp)
      have h1 : a / 4 < 64 := by omega
      have h2 : a % 4 * 16 + b / 16 < 64 := by omega
      have h3 : b % 16 * 4 < 64 := by omega
      show b64Decode [b64Char (a / 4), b64Char (a % 4 * 16 + b / 16),
        b64Char (b % 16 * 4), '='] = some [a, b]
      rw [b64Decode, if_neg (by simp [b64Char_ne_pad _ h3]), if_pos ⟨rfl, rfl⟩,
        b64Index_b64Char _ h1, b64Index_b64Char _ h2, b64Index_b64Char _ h3]
      simp only [Option.bind_eq_bind, Option.some_bind]
      have e1 : (a % 4 * 16 + b / 16) / 16 = a % 4 :=
        mulAdd_div _ _ _ (by norm_num) (by omega)
      have e2 : (a % 4 * 16 + b / 16) % 16 = b / 16 := mulAdd_mod _ _ _ (by omega)
      have e3 : b % 16 * 4 / 4 = b % 16 := Nat.mul_div_cancel _ (by norm_num)
      rw [e1, e2, e3]
      have e4 : a / 4 * 4 + a % 4 = a := by omega
      have e5 : b / 16 * 16 + b % 16 = b := by omega
      rw [e4, e5]
  | a :: b :: c :: rest, h => by
      have ha : a < 256 := h a (by simp)
      have hb : b < 256 := h b (by simp)
      have hc : c < 256 := h c (by simp)
      have h1 : a / 4 < 64 := by omega
      have h2 : a % 4 * 16 + b / 16 < 64 := by omega
      have h3 : b % 16 * 4 + c / 64 < 64 := by omega
      have h4 : c % 64 < 64 := by omega
      have hrest : b64Decode (b64Encode rest) = some rest :=
        b64_roundtrip rest (fun x hx => h x (by simp [hx]))
      show b64Decode (b64Char (a / 4) :: b64Char (a % 4 * 16 + b / 16) ::
        b64Char (b % 16 * 4 + c / 64) :: b64Char (c % 64) :: b64Encode rest) =
        some (a :: b :: c :: rest)
      rw [b64Decode, if_neg (by simp [b64Char_ne_pad _ h3]),
        if_neg (by simp [b64Char_ne_pad _ h4]),
        b64Index_b64Char _ h1, b64Index_b64Char _ h2, b64Index_b64Char _ h3,
        b64Index_b64Char _ h4, hrest]
      simp only [Option.bind_eq_bind, Option.some_bind]
      have e1 : (a % 4 * 16 + b / 16) / 16 = a % 4 :=
        mulAdd_div _ _ _ (by norm_num) (by omega)
      have e2 : (a % 4 * 16 + b / 16) % 16 = b / 16 := mulAdd_mod _ _ _ (by omega)
      have e3 : (b % 16 * 4 + c / 64) / 4 = b % 16 :=
        mulAdd_div _ _ _ (by norm_num) (by omega)
      have e4 : (b % 16 * 4 + c / 64) % 4 = c / 64 := mulAdd_mod _ _ _ (by omega)
      rw [e1, e2, e3, e4]
      have e5 : a / 4 * 4 + a % 4 = a := by omega
      have e6 : b / 16 * 16 + b % 16 = b := by omega
      have e7 : c / 64 * 64 + c % 64 = c := by omega
      rw [e5, e6, e7]

/-! ## Scheduler lemmas -/

lemma segmentDuration_nonneg (n : ℕ) : 0 ≤ segmentDuration n := by
  unfold segmentDuration
  positivity

lemma scheduleDelta_next_mono (now : ℚ) (n : ℕ) (st : SchedState) :
    st.nextStartTime ≤ (scheduleDelta now n st).nextStartTime := by
  have h1 : st.nextStartTime ≤ max now st.nextStartTime := le_max_right _ _
  have h2 := segmentDuration_nonneg n
  simp only [scheduleDelta]
  linarith

lemma runSched_cons (e : ℚ × ℕ) (evs : List (ℚ × ℕ)) (st : SchedState) :
    runSched (e :: evs) st = runSched evs (scheduleDelta e.1 e.2 st) := rfl

lemma runSched_next_mono (evs : List (ℚ × ℕ)) (st : SchedState) :
    st.nextStartTime ≤ (runSched evs st).nextStartTime := by
  induction evs generalizing st with
  | nil => exact le_refl _
  | cons e evs ih =>
      rw [runSched_cons]
      exact le_trans (scheduleDelta_next_mono e.1 e.2 st) (ih _)

lemma schedInv_step (now : ℚ) (n : ℕ) (st : SchedState) (h : schedInv st) :
    schedInv (scheduleDelta now n st) := by
  obtain ⟨hchain, hlast⟩ := h
  constructor
  · simp only [scheduleDelta, segmentsContiguous]
    rw [List.chain'_append]
    refine ⟨hchain, List.chain'_singleton _, ?_⟩
    intro x hx y hy
    simp only [List.head?_cons, Option.mem_def, Option.some.injEq] at hy
    subst hy
    exact le_trans (hlast x hx) (le_max_right now st.nextStartTime)
  · intro p hp
    simp only [scheduleDelta, List.getLast?_concat, Option.mem_def, Option.some.injEq] at hp
    subst hp
    exact le_refl _

lemma schedInv_run (evs : List (ℚ × ℕ)) (st : SchedState) (h : schedInv st) :
    schedInv (runSched evs st) := by
  induction evs generalizing st with
  | nil => exact h
  | cons e evs ih =>
      rw [runSched_cons]
      exact ih _ (schedInv_step e.1 e.2 st h)

/-! ## Turn-assembler lemmas -/

lemma userMsgs_append (l1 l2 : List Msg) :
    userMsgs (l1 ++ l2) = userMsgs l1 ++ userMsgs l2 := by
  simp [userMsgs, List.filter_append]

lemma outputDelta_flag_keeps (t : String) (s : AgentState)
    (h : s.turnLanguageDetected = true) :
    (handleOutputDelta t s).transcripts = s.transcripts ∧
      (handleOutputDelta t s).turnLanguageDetected = true ∧
      (handleOutputDelta t s).currentOutputTrans = s.currentOutputTrans ++ t := by
  simp only [handleOutputDelta]
  split
  · simp [h]
  · simp [h]

lemma outputDeltas_no_messages (ds : List String) (s : AgentState)
    (h : s.turnLanguageDetected = true) :
    (ds.foldl (fun a t => handleOutputDelta t a) s).transcripts = s.transcripts := by
  induction ds generalizing s with
  | nil => rfl
  | cons d ds ih =>
      simp only [List.foldl_cons]
      have hk := outputDelta_flag_keeps d s h
      rw [ih _ hk.2.1, hk.1]

lemma langTagMatchL_shape (l x : List Char) (h : langTagMatchL l = some x) :
    ∃ rest, l = '[' :: 'L' :: 'A' :: 'N' :: 'G' :: ':' :: rest := by
  unfold langTagMatchL at h
  split at h
  · next rest => exact ⟨rest, rfl⟩
  · exact absurd h (by simp)

lemma langTagMatch_nonblank (lang buf : String) (h : langTagMatch buf = some lang) :
    trimNonblank buf = true := by
  unfold langTagMatch at h
  cases hm : langTagMatchL buf.toList with
  | none => rw [hm] at h; simp at h
  | some x =>
      obtain ⟨rest, hrest⟩ := langTagMatchL_shape _ _ hm
      unfold trimNonblank
      rw [hrest]
      simp only [List.any_cons, Bool.or_eq_true]
      exact Or.inl (by decide)

lemma turnComplete_clears_flag (s : AgentState)
    (h : trimNonblank s.currentOutputTrans = true) :
    (handleTurnComplete s).turnLanguageDetected = false := by
  unfold handleTurnComplete
  by_cases hin : trimNonblank s.currentInputTrans = true <;> simp [hin, h]

/-! ## Claim theorems -/

/-- C1: every newly scheduled audio segment starts at
`max(currentClockTime, nextStartTime)` and `nextStartTime` is then
advanced by exactly that segment's duration; `nextStartTime` is
non-decreasing across any sequence of `onAudioDelta` events, and for any
two consecutively scheduled segments the second's start time is at least
the first's start time plus the first's duration (contiguous,
non-overlapping playback in arrival order). -/
theorem C1_playback_scheduling :
    (∀ (now : ℚ) (n : ℕ) (st : SchedState),
        scheduleDelta now n st =
          { nextStartTime := max now st.nextStartTime + segmentDuration n
            played := st.played ++ [(max now st.nextStartTime, segmentDuration n)] }) ∧
    (∀ (now : ℚ) (n : ℕ) (st : SchedState),
        st.nextStartTime ≤ (scheduleDelta now n st).nextStartTime) ∧
    (∀ (evs : List (ℚ × ℕ)) (st : SchedState),
        st.nextStartTime ≤ (runSched evs st).nextStartTime) ∧
    (∀ evs : List (ℚ × ℕ), segmentsContiguous (runSched evs initSched).played) := by
  refine ⟨fun now n st => rfl, scheduleDelta_next_mono, runSched_next_mono, fun evs => ?_⟩
  have hinit : schedInv initSched := by
    constructor
    · exact List.chain'_nil
    · intro p hp
      simp [initSched] at hp
  exact (schedInv_run evs initSched hinit).1

/-- C2: every exit path (explicit stop, remote close, remote error, local
exception during start) runs the same teardown routine and leaves zero
acquired streams, nodes, contexts, session handles or playback sources
outstanding, from any starting state; running teardown again on the
already-torn-down state changes nothing. -/
theorem C2_teardown_exhaustive_idempotent :
    (∀ s, stopClick s = cleanupAudio s ∧ onCloseEvent s = cleanupAudio s) ∧
    (∀ m s, onErrorEvent m s =
        cleanupAudio { s with error := some ("Connection interrupted. " ++ m) } ∧
      connectException m s = cleanupAudio { s with error := some m }) ∧
    (∀ s, cleanedUp (stopClick s)) ∧
    (∀ s, cleanedUp (onCloseEvent s)) ∧
    (∀ m s, cleanedUp (onErrorEvent m s)) ∧
    (∀ m s, cleanedUp (connectException m s)) ∧
    (∀ s, cleanupAudio (cleanupAudio s) = cleanupAudio s) := by
  exact ⟨fun s => ⟨rfl, rfl⟩, fun m s => ⟨rfl, rfl⟩,
    fun s => ⟨rfl, rfl, rfl, rfl, rfl, rfl, rfl, rfl⟩,
    fun s => ⟨rfl, rfl, rfl, rfl, rfl, rfl, rfl, rfl⟩,
    fun m s => ⟨rfl, rfl, rfl, rfl, rfl, rfl, rfl, rfl⟩,
    fun m s => ⟨rfl, rfl, rfl, rfl, rfl, rfl, rfl, rfl⟩,
    fun s => rfl⟩

/-- C10: teardown resets the playback cursor, live input preview, volume
meter and per-turn language flag, but leaves the input and output
transcript accumulators and the transcript log unchanged (no
finalization), and a subsequent successful start still leaves the
accumulated text in place. -/
theorem C10_teardown_frame_effect :
    ∀ s : AgentState,
      (cleanupAudio s).nextStartTime = 0 ∧
      (cleanupAudio s).streamingInput = "" ∧
      (cleanupAudio s).volume = 0 ∧
      (cleanupAudio s).turnLanguageDetected = false ∧
      (cleanupAudio s).currentInputTrans = s.currentInputTrans ∧
      (cleanupAudio s).currentOutputTrans = s.currentOutputTrans ∧
      (cleanupAudio s).transcripts = s.transcripts ∧
      (∀ o, (connectSuccess o (cleanupAudio s)).currentInputTrans = s.currentInputTrans ∧
        (connectSuccess o (cleanupAudio s)).currentOutputTrans = s.currentOutputTrans) := by
  intro s
  refine ⟨rfl, rfl, rfl, rfl, rfl, rfl, rfl, fun o => ?_⟩
  cases o <;>
    simp [connectSuccess, onOpen, connectSetup, acquireSysAudio, cleanupAudio] <;>
    split <;> simp

/-- C7: decoding inverts encoding by dividing each little-endian 16-bit
sample by 32768; a byte sequence of odd length fails to decode
(`MalformedFrame`), and such a frame is dropped without altering the
session state (no teardown). -/
theorem C7_decode_malformed_frames :
    (∀ bs : List ℕ, bs.length % 2 = 1 → pcmDecode bs = none) ∧
    (∀ xs : List ℚ, pcmDecode (pcmEncode xs) = some (xs.map roundtripSample)) ∧
    (∀ x : ℚ, roundtripSample x = (quantize x : ℚ) / 32768) ∧
    (∀ (now : ℚ) (bs : List ℕ) (s : AgentState),
        pcmDecode bs = none → onAudioDeltaAgent now bs s = s) := by
  refine ⟨?_, pcmDecode_pcmEncode, fun x => rfl, ?_⟩
  · intro bs
    induction bs using pcmDecode.induct with
    | case1 => intro h; simp at h
    | case2 b => intro h; rfl
    | case3 lo hi rest ih =>
        intro h
        have hr : rest.length % 2 = 1 := by
          simp only [List.length_cons] at h
          omega
        rw [pcmDecode_pair, ih hr]
        rfl
  · intro now bs s h
    simp [onAudioDeltaAgent, h]

/-- Witness for C7 at a concrete malformed frame of length 3. -/
theorem C7_witness :
    pcmDecode [1, 2, 3] = none ∧
      onAudioDeltaAgent 0 [1, 2, 3] sampleActiveState = sampleActiveState := by
  have h1 := C7_decode_malformed_frames.1 [1, 2, 3] (by decide)
  exact ⟨h1, C7_decode_malformed_frames.2.2.2 0 [1, 2, 3] sampleActiveState h1⟩

/-- C8: the transport encoding round trip is lossless for every byte
sequence, and the PCM codec round trip recovers every sample list up to
16-bit quantization error: each sample, after clamping to [-1, 1], is
recovered within one quantization step of 1/32768. -/
theorem C8_codec_roundtrips :
    (∀ bs : List ℕ, (∀ b ∈ bs, b < 256) → b64Decode (b64Encode bs) = some bs) ∧
    (∀ xs : List ℚ, pcmDecode (pcmEncode xs) = some (xs.map roundtripSample)) ∧
    (∀ x : ℚ, |roundtripSample x - clamp1 x| ≤ 1 / 32768) :=
  ⟨b64_roundtrip, pcmDecode_pcmEncode, roundtrip_error⟩

/-- Witness for C8 at a concrete byte sequence. -/
theorem C8_witness :
    b64Decode (b64Encode [0, 17, 255, 64, 3]) = some [0, 17, 255, 64, 3] :=
  C8_codec_roundtrips.1 [0, 17, 255, 64, 3] (by decide)

set_option maxRecDepth 8000 in
/-- C9: the instruction payload built at connect time selects exactly one
of the translator / diarization / assistant modes, translation taking
precedence over diarization when both are requested, and the system
"connected" message emitted on open reflects the same selected mode. -/
theorem C9_mode_selection :
    ∀ t d : Bool,
      modeOfInstruction (systemInstructionFor t d) = some (selectMode t d) ∧
      modeOfStatus (openStatusText t d) = some (selectMode t d) ∧
      selectMode true true = Mode.translator ∧
      (∀ s : AgentState, s.translationEnabled = t → s.diarizationEnabled = d →
        (onOpen s).transcripts = s.transcripts ++ [⟨Role.system, openStatusText t d⟩]) := by
  intro t d
  refine ⟨?_, ?_, rfl, ?_⟩
  · cases t <;> cases d <;> rfl
  · cases t <;> cases d <;> rfl
  · intro s ht hd
    simp [onOpen, ht, hd]

/-- Witness for C9 at the sample state. -/
theorem C9_witness :
    (onOpen sampleSysAudioState).transcripts =
      sampleSysAudioState.transcripts ++
        [⟨Role.system, openStatusText false true⟩] :=
  (C9_mode_selection false true).2.2.2 sampleSysAudioState rfl rfl

/-- C4: the language-tag check emits exactly one system message the first
time the output accumulator starts with a `[LANG:<name>]` tag, and never
again within the turn (guarded by the per-turn flag, which is cleared at
`TurnComplete`, whose finalized model message has the tag stripped); the
deltas `["[LANG:", "English] Hi"]` yield exactly one system
"Language Detected: English" message and one model message "Hi". -/
theorem C4_language_tag_once :
    (∀ (t : String) (s : AgentState), s.turnLanguageDetected = true →
        (handleOutputDelta t s).transcripts = s.transcripts) ∧
    (∀ lang buf : String, langTagMatch buf = some lang → trimNonblank buf = true) ∧
    (∀ s : AgentState, trimNonblank s.currentOutputTrans = true →
        (handleTurnComplete s).turnLanguageDetected = false) ∧
    (handleOutputDelta ("[LANG:") freshAgentState).transcripts = [] ∧
    c4AfterDeltas.transcripts = [⟨Role.system, "Language Detected: English"⟩] ∧
    c4AfterDeltas.turnLanguageDetected = true ∧
    (∀ ds : List String,
        (ds.foldl (fun a t => handleOutputDelta t a) c4AfterDeltas).transcripts =
          c4AfterDeltas.transcripts) ∧
    (handleTurnComplete c4AfterDeltas).transcripts =
      [⟨Role.system, "Language Detected: English"⟩, ⟨Role.model, "Hi"⟩] ∧
    (handleTurnComplete c4AfterDeltas).turnLanguageDetected = false ∧
    (handleTurnComplete c4AfterDeltas).currentOutputTrans = "" ∧
    userMsgs (handleTurnComplete c4AfterDeltas).transcripts = [] := by
  refine ⟨fun t s h => (outputDelta_flag_keeps t s h).1, langTagMatch_nonblank,
    turnComplete_clears_flag, by decide, by decide, by decide,
    fun ds => outputDeltas_no_messages ds c4AfterDeltas (by decide),
    by decide, by decide, by decide, by decide⟩

/-- Witness for C4 at concrete inputs. -/
theorem C4_witness :
    (handleOutputDelta (" more") c4AfterDeltas).transcripts = c4AfterDeltas.transcripts ∧
      trimNonblank ("[LANG:English] Hi") = true ∧
      (handleTurnComplete c4AfterDeltas).turnLanguageDetected = false :=
  ⟨C4_language_tag_once.1 (" more") c4AfterDeltas (by decide),
    C4_language_tag_once.2.1 ("English") ("[LANG:English] Hi") (by decide),
    C4_language_tag_once.2.2.1 c4AfterDeltas (by decide)⟩

/-- C3 counterexample: after input deltas `[" Hel", "lo "]` and
`TurnComplete`, the finalized user message's text is the raw accumulated
input `" Hello "`, not the trimmed `"Hello"` the claim requires (the trim
is only the finalization guard). -/
theorem C3_counterexample :
    userMsgs c3CexState.transcripts = [⟨Role.user, " Hello "⟩] ∧
      jsTrim (" Hello ") = "Hello" ∧
      userMsgs c3CexState.transcripts ≠ [⟨Role.user, jsTrim (" Hello ")⟩] := by decide

/-- C3 (amended): on `TurnComplete`, a non-blank input accumulator (some
character is non-whitespace) is finalized as exactly one user message
whose text is the raw accumulated input, and the accumulator and live
preview are cleared; a blank accumulator produces no user message; the
deltas `["He", "llo"]` yield exactly one user message "Hello" and empty
buffers. -/
theorem C3_turn_input_finalization :
    (∀ s : AgentState, trimNonblank s.currentInputTrans = true →
        userMsgs (handleTurnComplete s).transcripts =
          userMsgs s.transcripts ++ [⟨Role.user, s.currentInputTrans⟩] ∧
        (handleTurnComplete s).currentInputTrans = "" ∧
        (handleTurnComplete s).streamingInput = "") ∧
    (∀ s : AgentState, trimNonblank s.currentInputTrans = false →
        userMsgs (handleTurnComplete s).transcripts = userMsgs s.transcripts ∧
        (handleTurnComplete s).currentInputTrans = s.currentInputTrans) ∧
    userMsgs (handleTurnComplete c3AfterDeltas).transcripts = [⟨Role.user, "Hello"⟩] ∧
    (handleTurnComplete c3AfterDeltas).currentInputTrans = "" ∧
    (handleTurnComplete c3AfterDeltas).streamingInput = "" ∧
    (handleTurnComplete c3AfterDeltas).currentOutputTrans = "" := by
  refine ⟨?_, ?_, by decide, by decide, by decide, by decide⟩
  · intro s h
    unfold handleTurnComplete
    by_cases hout : trimNonblank s.currentOutputTrans = true <;>
      simp [h, hout, userMsgs_append, userMsgs]
  · intro s h
    unfold handleTurnComplete
    by_cases hout : trimNonblank s.currentOutputTrans = true <;>
      simp [h, hout, userMsgs_append, userMsgs]

/-- Witness for C3 at concrete states. -/
theorem C3_witness :
    (userMsgs (handleTurnComplete c3AfterDeltas).transcripts =
        userMsgs c3AfterDeltas.transcripts ++ [⟨Role.user, "Hello"⟩]) ∧
      userMsgs (handleTurnComplete freshAgentState).transcripts =
        userMsgs freshAgentState.transcripts :=
  ⟨(C3_turn_input_finalization.1 c3AfterDeltas (by decide)).1,
    (C3_turn_input_finalization.2.1 freshAgentState (by decide)).1⟩

/-- C5 counterexample: a connect call from an Active state is not
rejected and does change state — it acquires a further microphone stream
and replaces the handles; no `AlreadyActive` rejection exists in the
code. -/
theorem C5_counterexample :
    sampleActiveState.isActive = true ∧
      (connectSetup SysOutcome.declined sampleActiveState).mediaStreams =
        sampleActiveState.mediaStreams + 1 ∧
      connectSetup SysOutcome.declined sampleActiveState ≠ sampleActiveState := by decide

/-- C5 (amended): connect performs no Active/Connecting check and never
rejects: from any state it proceeds, storing a session handle, clearing
the error and acquiring fresh streams; the UI prevents a start while
Active only by mapping the main control to teardown instead of connect
(while Connecting, the active flag is still false and a second start
would proceed). -/
theorem C5_start_unguarded :
    (∀ (s : AgentState) (o : SysOutcome), s.isActive = true →
        mainButtonAction o s = cleanupAudio s) ∧
    (∀ (s : AgentState) (o : SysOutcome), s.isActive = false →
        mainButtonAction o s = connectSuccess o s) ∧
    (∀ (s : AgentState) (o : SysOutcome),
        (connectSetup o s).session = true ∧
        (connectSetup o s).error = none ∧
        (connectSetup o s).mediaStreams =
          s.mediaStreams + 1 + (if s.useSystemAudio then sysStreams o else 0)) := by
  refine ⟨?_, ?_, ?_⟩
  · intro s o h
    simp [mainButtonAction, h]
  · intro s o h
    simp [mainButtonAction, h]
  · intro s o
    cases o <;> by_cases hU : s.useSystemAudio <;>
      simp [connectSetup, acquireSysAudio, sysStreams, hU]

/-- Witness for C5 at the sample active and fresh states. -/
theorem C5_witness :
    mainButtonAction SysOutcome.declined sampleActiveState =
        cleanupAudio sampleActiveState ∧
      mainButtonAction SysOutcome.declined freshAgentState =
        connectSuccess SysOutcome.declined freshAgentState :=
  ⟨C5_start_unguarded.1 sampleActiveState SysOutcome.declined (by decide),
    C5_start_unguarded.2.1 freshAgentState SysOutcome.declined (by decide)⟩

/-- C6 counterexample: with system audio requested and then declined, the
session still activates with no error, but the transcript log holds only
the ordinary connected message — no user-visible degraded-input notice is
produced (the code only logs a console warning); the batch transcriber's
decline path likewise sets no visible notice. -/
theorem C6_counterexample :
    (connectSuccess SysOutcome.declined sampleSysAudioState).isActive = true ∧
      (connectSuccess SysOutcome.declined sampleSysAudioState).error = none ∧
      (connectSuccess SysOutcome.declined sampleSysAudioState).transcripts =
        [⟨Role.system, "Secure Link Established. Speaker ID Active."⟩] ∧
      (batchStartRecording SysOutcome.declined sampleBatchState).streamError = none := by
  decide

/-- C6 (amended): declining the optional source, or granting it without an
audio track, still yields an Active microphone-only session with no fatal
error and no teardown; the visible notice exists only in the batch
transcriber's granted-without-track case, while the live agent emits no
notice at all and the batch decline path silently resets the toggle. -/
theorem C6_degraded_no_notice :
    (∀ (s : AgentState) (o : SysOutcome), s.useSystemAudio = true →
        o ≠ SysOutcome.grantedWithTrack →
        (connectSuccess o s).isActive = true ∧
        (connectSuccess o s).error = none ∧
        (connectSuccess o s).session = true ∧
        (connectSuccess o s).mixedInputs = s.mixedInputs + 1 ∧
        (connectSuccess o s).transcripts = s.transcripts ++
          [⟨Role.system, openStatusText s.translationEnabled s.diarizationEnabled⟩]) ∧
    (∀ s : BatchState, s.useSystemAudio = true →
        (batchStartRecording SysOutcome.grantedNoTrack s).isRecording = true ∧
        (batchStartRecording SysOutcome.grantedNoTrack s).mixedInputs = s.mixedInputs + 1 ∧
        (batchStartRecording SysOutcome.grantedNoTrack s).streamError =
          some ("System audio not shared. Recording microphone only.")) ∧
    (∀ s : BatchState, s.useSystemAudio = true →
        (batchStartRecording SysOutcome.declined s).isRecording = true ∧
        (batchStartRecording SysOutcome.declined s).mixedInputs = s.mixedInputs + 1 ∧
        (batchStartRecording SysOutcome.declined s).streamError = none ∧
        (batchStartRecording SysOutcome.declined s).useSystemAudio = false) := by
  refine ⟨?_, ?_, ?_⟩
  · intro s o hU ho
    cases o with
    | declined =>
        simp [connectSuccess, onOpen, connectSetup, acquireSysAudio, hU]
    | grantedNoTrack =>
        simp [connectSuccess, onOpen, connectSetup, acquireSysAudio, hU]
    | grantedWithTrack => exact absurd rfl ho
  · intro s hU
    simp [batchStartRecording, batchAcquireSysAudio, hU]
  · intro s hU
    simp [batchStartRecording, batchAcquireSysAudio, hU]

/-- Witness for C6 at the sample states. -/
theorem C6_witness :
    (connectSuccess SysOutcome.grantedNoTrack sampleSysAudioState).isActive = true ∧
      (batchStartRecording SysOutcome.grantedNoTrack sampleBatchState).streamError =
        some ("System audio not shared. Recording microphone only.") ∧
      (batchStartRecording SysOutcome.declined sampleBatchState).streamError = none :=
  ⟨(C6_degraded_no_notice.1 sampleSysAudioState SysOutcome.grantedNoTrack (by decide)
      (by decide)).1,
    (C6_degraded_no_notice.2.1 sampleBatchState (by decide)).2.2,
    (C6_degraded_no_notice.2.2 sampleBatchState (by decide)).2.2.1⟩

end CoreTranscribe
